import Mathlib

/-!
Shallow embedding of `internal/fusefrontend/xattr_linux.go` from gocryptfs:
the symlink-safe extended-attribute gateway (getXattr, setXattr, removeXAttr,
listXAttr, getFileFd, procFd, disallowedXAttrName, filterXattrSetFlags).

The operating system and the rest of the filesystem front end are modelled as
an environment `Env` providing the outcome of `fs.Open` and of the four
`xattr` syscalls.  Each gateway operation is embedded as a pure function that
returns its Go result together with a trace of the externally visible calls it
makes (open, the attribute syscall with its target path, `Release`, warning
logs), so that resource-release and syscall-target invariants can be stated.
-/

namespace GocryptfsXattr

/-! ### go-fuse status codes (`fuse.Status` is an `int32`; 0 is OK) -/

namespace fuse

abbrev Status := Int

def OK : Status := 0

def EIO : Status := 5

/-- `status.Ok()` from go-fuse: true iff the status is 0. -/
def Status.Ok (s : Status) : Bool := s == 0

end fuse

/-! ### syscall constants (Linux values) -/

namespace syscall

def ELOOP : Int := 40

def O_RDONLY : Nat := 0

def O_NONBLOCK : Nat := 2048

def ENOENT : Int := 2

end syscall

/-! ### strings.HasPrefix -/

namespace strings

/-- Go `strings.HasPrefix(s, prefix)`: `s` begins with `prefix`. -/
def HasPrefix (s pre : String) : Bool := pre.data.isPrefixOf s.data

end strings

/-! ### The constants and pure helpers of xattr_linux.go -/

/-- Only allow the "user" namespace, block "trusted" and "security". -/
def xattrUserPrefix : String := "user."

def disallowedXAttrName (attr : String) : Bool :=
  !(strings.HasPrefix attr xattrUserPrefix)

def filterXattrSetFlags (flags : Int) : Int :=
  flags

/-- `procFd` returns the path to file descriptor `fd` in /proc/self/fd. -/
def procFd (fd : Int) : String :=
  "/proc/self/fd/" ++ toString fd

/-! ### Events: the externally visible calls a gateway operation makes -/

inductive Event where
  /-- A call `fs.Open(path, flags, context)`. -/
  | openCall (path : String) (flags : Nat)
  /-- A call `file.Release()` (or `fuseFile.Release()`). -/
  | releaseCall
  /-- A `tlog.Warn.Printf` log line. -/
  | warnLog (msg : String)
  /-- A call `xattr.Get(path, attr)`. -/
  | xattrGetCall (path : String) (attr : String)
  /-- A call `xattr.SetWithFlags(path, attr, data, flags)`. -/
  | xattrSetCall (path : String) (attr : String) (data : List Nat) (flags : Int)
  /-- A call `xattr.Remove(path, attr)`. -/
  | xattrRemoveCall (path : String) (attr : String)
  /-- A call `xattr.List(path)`. -/
  | xattrListCall (path : String)
  deriving DecidableEq, Repr

/-- What `fs.Open` hands back: the returned `nodefs.File` is modelled by
whether its dynamic type is the expected `*fusefrontend.File` (`isFile`)
together with that file's raw fd, plus the returned `fuse.Status`. -/
structure OpenReturn where
  isFile : Bool
  fd : Int
  status : fuse.Status
  deriving DecidableEq, Repr

/-- The environment: outcomes of `fs.Open` (the `fuse.Context` argument is
absorbed into the environment) and of the raw xattr syscalls, each keyed by
the argument strings the gateway passes.  An error from the xattr package is
modelled as the errno it wraps (`none` is Go's nil error). -/
structure Env where
  fsOpen : String → Nat → OpenReturn
  xattrGet : String → String → Except Int (List Nat)
  xattrSetWithFlags : String → String → List Nat → Int → Option Int
  xattrRemove : String → String → Option Int
  xattrList : String → Except Int (List String)

/-- Modelled from the spec: the repository's error translator
`unpackXattrErr` lives in `internal/fusefrontend/xattr.go`, which is not part
of the sources here.  Per the spec it is the collaborator that "maps system
error numbers to result codes", surfacing every failure unchanged: a nil
error becomes OK and an OS errno becomes the corresponding status code. -/
def unpackXattrErr : Option Int → fuse.Status
  | none => fuse.OK
  | some e => e

/-- The result triple of `getFileFd`: the `*File` (modelled by whether a
non-nil one was returned), the raw fd, and the status. -/
structure FdResult where
  file : Bool
  fd : Int
  status : fuse.Status
  deriving DecidableEq, Repr

/-- The flag word `getFileFd` passes to `fs.Open`:
`syscall.O_RDONLY|syscall.O_NONBLOCK` (`|` is Go's bitwise or). -/
def openFlags : Nat := Nat.lor syscall.O_RDONLY syscall.O_NONBLOCK

/-- `getFileFd` calls `fs.Open()` on relative plaintext path `relPath` with
`O_RDONLY|O_NONBLOCK` and returns the resulting `*File` along with the
underlying fd; on a failed cast to `*File` it logs a warning, releases the
opened file and returns EIO. -/
def getFileFd (env : Env) (relPath : String) : FdResult × List Event :=
  let o := env.fsOpen relPath openFlags
  let tr := [Event.openCall relPath openFlags]
  if !o.status.Ok then
    (⟨false, -1, o.status⟩, tr)
  else if !o.isFile then
    (⟨false, -1, fuse.EIO⟩,
      tr ++ [Event.warnLog "BUG: xattrGet: cast to *File failed", Event.releaseCall])
  else
    (⟨true, o.fd, fuse.OK⟩, tr)

/-- `getXattr` - read encrypted xattr name `cAttr` from relative plaintext
path `relPath`.  Returns the encrypted xattr value.  The deferred
`file.Release()` fires after the syscall on both exit paths. -/
def getXattr (env : Env) (relPath cAttr : String) :
    (Option (List Nat) × fuse.Status) × List Event :=
  let (r, tr) := getFileFd env relPath
  if !r.status.Ok then
    ((none, r.status), tr)
  else
    match env.xattrGet (procFd r.fd) cAttr with
    | .error e =>
        ((none, unpackXattrErr (some e)),
          tr ++ [Event.xattrGetCall (procFd r.fd) cAttr, Event.releaseCall])
    | .ok cData =>
        ((some cData, fuse.OK),
          tr ++ [Event.xattrGetCall (procFd r.fd) cAttr, Event.releaseCall])

/-- `setXattr` - set encrypted xattr name `cAttr` to value `cData` on
plaintext path `relPath`. -/
def setXattr (env : Env) (relPath cAttr : String) (cData : List Nat)
    (flags : Int) : fuse.Status × List Event :=
  let (r, tr) := getFileFd env relPath
  if !r.status.Ok then
    (r.status, tr)
  else
    let err := env.xattrSetWithFlags (procFd r.fd) cAttr cData flags
    (unpackXattrErr err,
      tr ++ [Event.xattrSetCall (procFd r.fd) cAttr cData flags, Event.releaseCall])

/-- `removeXAttr` - remove encrypted xattr name `cAttr` from plaintext path
`relPath`. -/
def removeXAttr (env : Env) (relPath cAttr : String) : fuse.Status × List Event :=
  let (r, tr) := getFileFd env relPath
  if !r.status.Ok then
    (r.status, tr)
  else
    let err := env.xattrRemove (procFd r.fd) cAttr
    (unpackXattrErr err,
      tr ++ [Event.xattrRemoveCall (procFd r.fd) cAttr, Event.releaseCall])

/-- `listXAttr` - list encrypted xattr names on plaintext path `relPath`.
If `getFileFd` fails with ELOOP (relPath is a symlink), the nil name list is
returned with OK, since no xattr can ever be set on a symlink. -/
def listXAttr (env : Env) (relPath : String) :
    (Option (List String) × fuse.Status) × List Event :=
  let (r, tr) := getFileFd env relPath
  if !r.status.Ok then
    if r.status == (syscall.ELOOP : fuse.Status) then
      ((none, fuse.OK), tr)
    else
      ((none, r.status), tr)
  else
    match env.xattrList (procFd r.fd) with
    | .error e =>
        ((none, unpackXattrErr (some e)),
          tr ++ [Event.xattrListCall (procFd r.fd), Event.releaseCall])
    | .ok cNames =>
        ((some cNames, fuse.OK),
          tr ++ [Event.xattrListCall (procFd r.fd), Event.releaseCall])

/-! ### Trace observations -/

/-- The path an event passes to an attribute syscall, if it is one. -/
def Event.xattrTarget : Event → Option String
  | .xattrGetCall p _ => some p
  | .xattrSetCall p _ _ _ => some p
  | .xattrRemoveCall p _ => some p
  | .xattrListCall p => some p
  | _ => none

/-- Every attribute syscall in the trace targets path `p`. -/
def xattrTargetsOnly (tr : List Event) (p : String) : Bool :=
  tr.all fun e =>
    match e.xattrTarget with
    | some q => q == p
    | none => true

/-- Some attribute syscall in the trace targets path `p`. -/
def xattrTargetsPath (tr : List Event) (p : String) : Bool :=
  tr.any fun e => e.xattrTarget == some p

/-- The trace contains no attribute syscall at all. -/
def noXattrSyscall (tr : List Event) : Bool :=
  tr.all fun e => e.xattrTarget == none

/-- An event is a `Release()` call. -/
def Event.isRelease : Event → Bool
  | .releaseCall => true
  | _ => false

/-- How many times `Release()` was called in the trace. -/
def releaseCount (tr : List Event) : Nat :=
  (tr.filter Event.isRelease).length

/-- Every `fs.Open` call in the trace uses the flag word `fl`. -/
def openFlagsAll (tr : List Event) (fl : Nat) : Bool :=
  tr.all fun e =>
    match e with
    | .openCall _ f => f == fl
    | _ => true

/-- Every `xattr.SetWithFlags` call in the trace passes the flag word `fl`. -/
def setFlagsAll (tr : List Event) (fl : Int) : Bool :=
  tr.all fun e =>
    match e with
    | .xattrSetCall _ _ _ f => f == fl
    | _ => true

/-- Blank out the attribute-name argument of attribute syscalls, keeping
everything else: two traces equal after `eraseAttr` make exactly the same
sequence of calls up to the attribute name passed along. -/
def Event.eraseAttr : Event → Event
  | .xattrGetCall p _ => .xattrGetCall p ""
  | .xattrSetCall p _ d f => .xattrSetCall p "" d f
  | .xattrRemoveCall p _ => .xattrRemoveCall p ""
  | e => e

/-! ### Concrete environments (used by the witnesses) -/

/-- Everything succeeds: `fs.Open` yields a real `*File` with fd 7. -/
def envOk : Env where
  fsOpen := fun _ _ => ⟨true, 7, fuse.OK⟩
  xattrGet := fun _ _ => .ok [1, 2]
  xattrSetWithFlags := fun _ _ _ _ => none
  xattrRemove := fun _ _ => none
  xattrList := fun _ => .ok ["user.a"]

/-- `fs.Open` fails with ELOOP (the path is a symlink). -/
def envEloop : Env where
  fsOpen := fun _ _ => ⟨false, -1, (syscall.ELOOP : fuse.Status)⟩
  xattrGet := fun _ _ => .error syscall.ELOOP
  xattrSetWithFlags := fun _ _ _ _ => some syscall.ELOOP
  xattrRemove := fun _ _ => some syscall.ELOOP
  xattrList := fun _ => .error syscall.ELOOP

/-- `fs.Open` fails with ENOENT (the path does not exist). -/
def envEnoent : Env where
  fsOpen := fun _ _ => ⟨false, -1, (syscall.ENOENT : fuse.Status)⟩
  xattrGet := fun _ _ => .error syscall.ENOENT
  xattrSetWithFlags := fun _ _ _ _ => some syscall.ENOENT
  xattrRemove := fun _ _ => some syscall.ENOENT
  xattrList := fun _ => .error syscall.ENOENT

/-- `fs.Open` succeeds but hands back something that is not a `*File`. -/
def envCastFail : Env where
  fsOpen := fun _ _ => ⟨false, 3, fuse.OK⟩
  xattrGet := fun _ _ => .ok []
  xattrSetWithFlags := fun _ _ _ _ => none
  xattrRemove := fun _ _ => none
  xattrList := fun _ => .ok []

/-- `fs.Open` succeeds with fd 9, but the `xattr.List` syscall itself fails
with ELOOP. -/
def envListEloop : Env where
  fsOpen := fun _ _ => ⟨true, 9, fuse.OK⟩
  xattrGet := fun _ _ => .error syscall.ELOOP
  xattrSetWithFlags := fun _ _ _ _ => some syscall.ELOOP
  xattrRemove := fun _ _ => some syscall.ELOOP
  xattrList := fun _ => .error syscall.ELOOP

/-! ### Case analysis of getFileFd -/

lemma getFileFd_open_fail (env : Env) (relPath : String)
    (h : (env.fsOpen relPath openFlags).status.Ok = false) :
    getFileFd env relPath =
      (⟨false, -1, (env.fsOpen relPath openFlags).status⟩,
        [Event.openCall relPath openFlags]) := by
  unfold getFileFd
  simp [h]

lemma getFileFd_cast_fail (env : Env) (relPath : String)
    (hok : (env.fsOpen relPath openFlags).status.Ok = true)
    (hcast : (env.fsOpen relPath openFlags).isFile = false) :
    getFileFd env relPath =
      (⟨false, -1, fuse.EIO⟩,
        [Event.openCall relPath openFlags,
         Event.warnLog "BUG: xattrGet: cast to *File failed",
         Event.releaseCall]) := by
  unfold getFileFd
  simp [hok, hcast]

lemma getFileFd_ok (env : Env) (relPath : String)
    (hok : (env.fsOpen relPath openFlags).status.Ok = true)
    (hcast : (env.fsOpen relPath openFlags).isFile = true) :
    getFileFd env relPath =
      (⟨true, (env.fsOpen relPath openFlags).fd, fuse.OK⟩,
        [Event.openCall relPath openFlags]) := by
  unfold getFileFd
  simp [hok, hcast]

lemma statusOk_OK : fuse.Status.Ok fuse.OK = true := by decide

lemma statusOk_eio : fuse.Status.Ok fuse.EIO = false := by decide

lemma eio_ne_eloop : (fuse.EIO == (syscall.ELOOP : fuse.Status)) = false := by decide

lemma statusOk_zero : fuse.Status.Ok 0 = true := by decide

lemma statusOk_eloop : fuse.Status.Ok (syscall.ELOOP : fuse.Status) = false := by decide

/-! ### The claims -/

/-- C3: `disallowedXAttrName` returns true for every name that does not start
with the allowed namespace prefix "user." and false for every name that does.
It is a plain function of the name alone (pure, no state). -/
theorem disallowedXAttrName_spec (name : String) :
    (strings.HasPrefix name "user." = false → disallowedXAttrName name = true) ∧
    (strings.HasPrefix name "user." = true → disallowedXAttrName name = false) := by
  unfold disallowedXAttrName xattrUserPrefix
  cases h : strings.HasPrefix name "user." <;> simp [h]

theorem disallowedXAttrName_spec_witness :
    disallowedXAttrName "trusted.foo" = true ∧
    disallowedXAttrName "user.foo" = false :=
  ⟨(disallowedXAttrName_spec "trusted.foo").1 (by decide),
    (disallowedXAttrName_spec "user.foo").2 (by decide)⟩

/-- C6: the `fs.Open` call issued by `getFileFd` carries exactly the flag
word `O_RDONLY|O_NONBLOCK` (read-only, non-blocking — the value 2048 on
Linux), and it is the first thing `getFileFd` does. -/
theorem getFileFd_open_flags (env : Env) (relPath : String) :
    (getFileFd env relPath).2.head? = some (Event.openCall relPath openFlags) ∧
    openFlagsAll (getFileFd env relPath).2 openFlags = true ∧
    openFlags = Nat.lor syscall.O_RDONLY syscall.O_NONBLOCK ∧
    openFlags = 2048 := by
  refine ⟨?_, ?_, rfl, by decide⟩ <;>
  · cases hok : (env.fsOpen relPath openFlags).status.Ok with
    | false => simp [getFileFd_open_fail env relPath hok, openFlagsAll]
    | true =>
      cases hcast : (env.fsOpen relPath openFlags).isFile with
      | false => simp [getFileFd_cast_fail env relPath hok hcast, openFlagsAll]
      | true => simp [getFileFd_ok env relPath hok hcast, openFlagsAll]

/-- C7: `filterXattrSetFlags` is the identity on every flag word, and
`setXattr` hands its `flags` argument to `xattr.SetWithFlags` unmodified
whenever the syscall is reached. -/
theorem setXattr_flags_passthrough (env : Env) (relPath cAttr : String)
    (cData : List Nat) (flags : Int) :
    filterXattrSetFlags flags = flags ∧
    setFlagsAll (setXattr env relPath cAttr cData flags).2 flags = true ∧
    (fuse.Status.Ok (getFileFd env relPath).1.status = true →
      Event.xattrSetCall (procFd (getFileFd env relPath).1.fd) cAttr cData flags
        ∈ (setXattr env relPath cAttr cData flags).2) := by
  refine ⟨rfl, ?_, ?_⟩ <;>
  · cases hok : (env.fsOpen relPath openFlags).status.Ok with
    | false =>
      simp [setXattr, getFileFd_open_fail env relPath hok, setFlagsAll, hok]
    | true =>
      cases hcast : (env.fsOpen relPath openFlags).isFile with
      | false =>
        simp [setXattr, getFileFd_cast_fail env relPath hok hcast, setFlagsAll,
          statusOk_eio]
      | true =>
        simp [setXattr, getFileFd_ok env relPath hok hcast, setFlagsAll,
          statusOk_OK]

theorem setXattr_flags_passthrough_witness :
    fuse.Status.Ok (getFileFd envOk "a").1.status = true ∧
    Event.xattrSetCall (procFd (getFileFd envOk "a").1.fd) "user.x" [7] 1
      ∈ (setXattr envOk "a" "user.x" [7] 1).2 :=
  ⟨by decide,
    (setXattr_flags_passthrough envOk "a" "user.x" [7] 1).2.2 (by decide)⟩

/-- C4: each of the four gateway operations releases the file exactly once
whenever `fs.Open` succeeded — on the success path, on attribute-syscall
failure, and on the cast-failure path inside `getFileFd` — and never calls
`Release()` when the open itself failed. -/
theorem release_exactly_once (env : Env) (relPath cAttr : String)
    (cData : List Nat) (flags : Int) :
    releaseCount (getXattr env relPath cAttr).2 =
      (if (env.fsOpen relPath openFlags).status.Ok = true then 1 else 0) ∧
    releaseCount (setXattr env relPath cAttr cData flags).2 =
      (if (env.fsOpen relPath openFlags).status.Ok = true then 1 else 0) ∧
    releaseCount (removeXAttr env relPath cAttr).2 =
      (if (env.fsOpen relPath openFlags).status.Ok = true then 1 else 0) ∧
    releaseCount (listXAttr env relPath).2 =
      (if (env.fsOpen relPath openFlags).status.Ok = true then 1 else 0) := by
  cases hok : (env.fsOpen relPath openFlags).status.Ok with
  | false =>
    simp [getXattr, setXattr, removeXAttr, listXAttr,
      getFileFd_open_fail env relPath hok, releaseCount, Event.isRelease,
      hok, apply_ite]
  | true =>
    cases hcast : (env.fsOpen relPath openFlags).isFile with
    | false =>
      simp [getXattr, setXattr, removeXAttr, listXAttr,
        getFileFd_cast_fail env relPath hok hcast, releaseCount,
        Event.isRelease, statusOk_eio, eio_ne_eloop, hok, apply_ite]
    | true =>
      rcases hg : env.xattrGet (procFd (env.fsOpen relPath openFlags).fd) cAttr
        with e | d <;>
      rcases hl : env.xattrList (procFd (env.fsOpen relPath openFlags).fd)
        with e2 | ns <;>
      simp [getXattr, setXattr, removeXAttr, listXAttr,
        getFileFd_ok env relPath hok hcast, releaseCount, Event.isRelease,
        statusOk_OK, hok, hg, hl]

/-- C5: when `getFileFd` comes back with a non-OK status, `getXattr`,
`setXattr` and `removeXAttr` return that status unchanged (with a nil value
for `getXattr`) and issue no attribute syscall. -/
theorem acquisition_failure_short_circuits (env : Env) (relPath cAttr : String)
    (cData : List Nat) (flags : Int)
    (h : fuse.Status.Ok (getFileFd env relPath).1.status = false) :
    (getXattr env relPath cAttr).1 = (none, (getFileFd env relPath).1.status) ∧
    noXattrSyscall (getXattr env relPath cAttr).2 = true ∧
    (setXattr env relPath cAttr cData flags).1 = (getFileFd env relPath).1.status ∧
    noXattrSyscall (setXattr env relPath cAttr cData flags).2 = true ∧
    (removeXAttr env relPath cAttr).1 = (getFileFd env relPath).1.status ∧
    noXattrSyscall (removeXAttr env relPath cAttr).2 = true := by
  cases hok : (env.fsOpen relPath openFlags).status.Ok with
  | false =>
    simp [getXattr, setXattr, removeXAttr, getFileFd_open_fail env relPath hok,
      noXattrSyscall, Event.xattrTarget, hok]
  | true =>
    cases hcast : (env.fsOpen relPath openFlags).isFile with
    | false =>
      simp [getXattr, setXattr, removeXAttr,
        getFileFd_cast_fail env relPath hok hcast, noXattrSyscall,
        Event.xattrTarget, statusOk_eio]
    | true =>
      rw [getFileFd_ok env relPath hok hcast] at h
      simp [statusOk_OK] at h

theorem acquisition_failure_short_circuits_witness :
    fuse.Status.Ok (getFileFd envEnoent "a").1.status = false ∧
    (getXattr envEnoent "a" "user.x").1 =
      (none, (getFileFd envEnoent "a").1.status) ∧
    noXattrSyscall (getXattr envEnoent "a" "user.x").2 = true :=
  ⟨by decide,
    (acquisition_failure_short_circuits envEnoent "a" "user.x" [] 0 (by decide)).1,
    (acquisition_failure_short_circuits envEnoent "a" "user.x" [] 0 (by decide)).2.1⟩

/-- C8: when `fs.Open` succeeds but the returned object is not a `*File`,
`getFileFd` logs the BUG warning, releases the opened file, and returns
(nil file, fd -1, EIO) — the condition is surfaced, never silently
ignored. -/
theorem getFileFd_cast_failure_surfaced (env : Env) (relPath : String)
    (hok : (env.fsOpen relPath openFlags).status.Ok = true)
    (hcast : (env.fsOpen relPath openFlags).isFile = false) :
    (getFileFd env relPath).1 = ⟨false, -1, fuse.EIO⟩ ∧
    (getFileFd env relPath).2 =
      [Event.openCall relPath openFlags,
       Event.warnLog "BUG: xattrGet: cast to *File failed",
       Event.releaseCall] := by
  rw [getFileFd_cast_fail env relPath hok hcast]
  exact ⟨rfl, rfl⟩

theorem getFileFd_cast_failure_surfaced_witness :
    (envCastFail.fsOpen "a" openFlags).status.Ok = true ∧
    (envCastFail.fsOpen "a" openFlags).isFile = false ∧
    (getFileFd envCastFail "a").1 = ⟨false, -1, fuse.EIO⟩ :=
  ⟨by decide, by decide,
    (getFileFd_cast_failure_surfaced envCastFail "a" (by decide) (by decide)).1⟩

/-- C1: every attribute syscall issued by the four operations targets the
/proc/self/fd alias of the descriptor obtained from `getFileFd`; the original
`relPath` string (whenever it differs from that alias) is never the target of
an attribute syscall. -/
theorem xattr_syscalls_target_procfd (env : Env) (relPath cAttr : String)
    (cData : List Nat) (flags : Int) :
    xattrTargetsOnly (getXattr env relPath cAttr).2
      (procFd (getFileFd env relPath).1.fd) = true ∧
    xattrTargetsOnly (setXattr env relPath cAttr cData flags).2
      (procFd (getFileFd env relPath).1.fd) = true ∧
    xattrTargetsOnly (removeXAttr env relPath cAttr).2
      (procFd (getFileFd env relPath).1.fd) = true ∧
    xattrTargetsOnly (listXAttr env relPath).2
      (procFd (getFileFd env relPath).1.fd) = true ∧
    (relPath ≠ procFd (getFileFd env relPath).1.fd →
      xattrTargetsPath (getXattr env relPath cAttr).2 relPath = false ∧
      xattrTargetsPath (setXattr env relPath cAttr cData flags).2 relPath = false ∧
      xattrTargetsPath (removeXAttr env relPath cAttr).2 relPath = false ∧
      xattrTargetsPath (listXAttr env relPath).2 relPath = false) := by
  cases hok : (env.fsOpen relPath openFlags).status.Ok with
  | false =>
    simp [getXattr, setXattr, removeXAttr, listXAttr,
      getFileFd_open_fail env relPath hok, xattrTargetsOnly, xattrTargetsPath,
      Event.xattrTarget, hok, apply_ite]
  | true =>
    cases hcast : (env.fsOpen relPath openFlags).isFile with
    | false =>
      simp [getXattr, setXattr, removeXAttr, listXAttr,
        getFileFd_cast_fail env relPath hok hcast, xattrTargetsOnly,
        xattrTargetsPath, Event.xattrTarget, statusOk_eio, eio_ne_eloop,
        apply_ite]
    | true =>
      rcases hg : env.xattrGet (procFd (env.fsOpen relPath openFlags).fd) cAttr
        with e | d <;>
      rcases hl : env.xattrList (procFd (env.fsOpen relPath openFlags).fd)
        with e2 | ns <;>
      refine ⟨?_, ?_, ?_, ?_, fun hne => ?_⟩ <;>
      first
      | (simp [getXattr, setXattr, removeXAttr, listXAttr,
          getFileFd_ok env relPath hok hcast, xattrTargetsOnly,
          xattrTargetsPath, Event.xattrTarget, statusOk_OK, hg, hl]
         done)
      | · rw [getFileFd_ok env relPath hok hcast] at hne
          simp only [] at hne
          simp [getXattr, setXattr, removeXAttr, listXAttr,
            getFileFd_ok env relPath hok hcast, xattrTargetsOnly,
            xattrTargetsPath, Event.xattrTarget, statusOk_OK, hg, hl,
            beq_eq_false_iff_ne, Ne.symm hne]

theorem xattr_syscalls_target_procfd_witness :
    "a" ≠ procFd (getFileFd envOk "a").1.fd ∧
    xattrTargetsOnly (getXattr envOk "a" "user.x").2
      (procFd (getFileFd envOk "a").1.fd) = true ∧
    xattrTargetsPath (getXattr envOk "a" "user.x").2 "a" = false :=
  ⟨by decide,
    (xattr_syscalls_target_procfd envOk "a" "user.x" [] 0).1,
    ((xattr_syscalls_target_procfd envOk "a" "user.x" [] 0).2.2.2.2 (by decide)).1⟩

/-- C2: when descriptor acquisition in `listXAttr` fails with ELOOP the
operation returns a nil name list with status OK; any other acquisition
failure is returned as-is (with a nil name list). -/
theorem listXAttr_eloop_empty (env : Env) (relPath : String)
    (h : fuse.Status.Ok (getFileFd env relPath).1.status = false) :
    ((getFileFd env relPath).1.status = (syscall.ELOOP : fuse.Status) →
      (listXAttr env relPath).1 = (none, fuse.OK)) ∧
    ((getFileFd env relPath).1.status ≠ (syscall.ELOOP : fuse.Status) →
      (listXAttr env relPath).1 = (none, (getFileFd env relPath).1.status)) := by
  cases hok : (env.fsOpen relPath openFlags).status.Ok with
  | false =>
    refine ⟨fun he => ?_, fun hne => ?_⟩
    · rw [getFileFd_open_fail env relPath hok] at he
      simp only [] at he
      simp [listXAttr, getFileFd_open_fail env relPath hok, hok, he,
        statusOk_eloop]
    · rw [getFileFd_open_fail env relPath hok] at hne
      simp only [] at hne
      simp [listXAttr, getFileFd_open_fail env relPath hok, hok, hne,
        beq_eq_false_iff_ne]
  | true =>
    cases hcast : (env.fsOpen relPath openFlags).isFile with
    | false =>
      refine ⟨fun he => ?_, fun hne => ?_⟩
      · rw [getFileFd_cast_fail env relPath hok hcast] at he
        simp only [] at he
        exact absurd he (by decide)
      · simp [listXAttr, getFileFd_cast_fail env relPath hok hcast,
          statusOk_eio, eio_ne_eloop]
    | true =>
      rw [getFileFd_ok env relPath hok hcast] at h
      simp [statusOk_OK] at h

theorem listXAttr_eloop_empty_witness :
    fuse.Status.Ok (getFileFd envEloop "s").1.status = false ∧
    (getFileFd envEloop "s").1.status = (syscall.ELOOP : fuse.Status) ∧
    (listXAttr envEloop "s").1 = (none, fuse.OK) :=
  ⟨by decide, by decide,
    (listXAttr_eloop_empty envEloop "s" (by decide)).1 (by decide)⟩

/-- C9: the gateway operations apply no namespace check of their own: the
call sequence they make is the same for any two attribute names (in
particular across the allowed/disallowed boundary of `disallowedXAttrName`),
and once the descriptor is acquired the attribute syscall is issued even for
a disallowed name. -/
theorem no_namespace_check_inside (env : Env) (relPath n1 n2 : String)
    (cData : List Nat) (flags : Int) :
    ((getXattr env relPath n1).2.map Event.eraseAttr =
      (getXattr env relPath n2).2.map Event.eraseAttr) ∧
    ((setXattr env relPath n1 cData flags).2.map Event.eraseAttr =
      (setXattr env relPath n2 cData flags).2.map Event.eraseAttr) ∧
    ((removeXAttr env relPath n1).2.map Event.eraseAttr =
      (removeXAttr env relPath n2).2.map Event.eraseAttr) ∧
    (disallowedXAttrName n1 = true →
      fuse.Status.Ok (getFileFd env relPath).1.status = true →
      (Event.xattrGetCall (procFd (getFileFd env relPath).1.fd) n1
          ∈ (getXattr env relPath n1).2 ∧
        Event.xattrSetCall (procFd (getFileFd env relPath).1.fd) n1 cData flags
          ∈ (setXattr env relPath n1 cData flags).2 ∧
        Event.xattrRemoveCall (procFd (getFileFd env relPath).1.fd) n1
          ∈ (removeXAttr env relPath n1).2)) := by
  cases hok : (env.fsOpen relPath openFlags).status.Ok with
  | false =>
    refine ⟨?_, ?_, ?_, fun _ hOk => ?_⟩ <;>
    first
    | (simp [getXattr, setXattr, removeXAttr,
        getFileFd_open_fail env relPath hok, hok]
       done)
    | · rw [getFileFd_open_fail env relPath hok] at hOk
        simp only [] at hOk
        simp [hok] at hOk
  | true =>
    cases hcast : (env.fsOpen relPath openFlags).isFile with
    | false =>
      refine ⟨?_, ?_, ?_, fun _ hOk => ?_⟩ <;>
      first
      | (simp [getXattr, setXattr, removeXAttr,
          getFileFd_cast_fail env relPath hok hcast, statusOk_eio]
         done)
      | · rw [getFileFd_cast_fail env relPath hok hcast] at hOk
          simp only [] at hOk
          simp [statusOk_eio] at hOk
    | true =>
      rcases hg1 : env.xattrGet (procFd (env.fsOpen relPath openFlags).fd) n1
        with e1 | d1 <;>
      rcases hg2 : env.xattrGet (procFd (env.fsOpen relPath openFlags).fd) n2
        with e2 | d2 <;>
      refine ⟨?_, ?_, ?_, fun _ _ => ⟨?_, ?_, ?_⟩⟩ <;>
      simp [getXattr, setXattr, removeXAttr,
        getFileFd_ok env relPath hok hcast, statusOk_OK, hg1, hg2,
        Event.eraseAttr]

theorem no_namespace_check_inside_witness :
    disallowedXAttrName "trusted.x" = true ∧
    fuse.Status.Ok (getFileFd envOk "a").1.status = true ∧
    Event.xattrGetCall (procFd (getFileFd envOk "a").1.fd) "trusted.x"
      ∈ (getXattr envOk "a" "trusted.x").2 :=
  ⟨by decide, by decide,
    ((no_namespace_check_inside envOk "a" "trusted.x" "user.x" [] 0).2.2.2
      (by decide) (by decide)).1⟩

/-- C10: the ELOOP downgrade in `listXAttr` applies only to descriptor
acquisition: when the descriptor was acquired and the `xattr.List` syscall
itself fails (with any nonzero errno, ELOOP included), `listXAttr` returns
the translated error status with a nil name list — not an empty success. -/
theorem listXAttr_syscall_error_not_downgraded (env : Env) (relPath : String)
    (e : Int)
    (hok : fuse.Status.Ok (getFileFd env relPath).1.status = true)
    (herr : env.xattrList (procFd (getFileFd env relPath).1.fd) = .error e)
    (hne : e ≠ 0) :
    (listXAttr env relPath).1 = (none, unpackXattrErr (some e)) ∧
    (listXAttr env relPath).1.2 ≠ fuse.OK := by
  cases ho : (env.fsOpen relPath openFlags).status.Ok with
  | false =>
    rw [getFileFd_open_fail env relPath ho] at hok
    simp only [] at hok
    simp [ho] at hok
  | true =>
    cases hcast : (env.fsOpen relPath openFlags).isFile with
    | false =>
      rw [getFileFd_cast_fail env relPath ho hcast] at hok
      simp only [] at hok
      simp [statusOk_eio] at hok
    | true =>
      rw [getFileFd_ok env relPath ho hcast] at herr
      simp only [] at herr
      refine ⟨?_, ?_⟩ <;>
      simp [listXAttr, getFileFd_ok env relPath ho hcast, statusOk_OK,
        statusOk_zero, herr, unpackXattrErr, fuse.OK, hne]

theorem listXAttr_syscall_error_not_downgraded_witness :
    fuse.Status.Ok (getFileFd envListEloop "a").1.status = true ∧
    envListEloop.xattrList (procFd (getFileFd envListEloop "a").1.fd) =
      .error syscall.ELOOP ∧
    syscall.ELOOP ≠ 0 ∧
    (listXAttr envListEloop "a").1 =
      (none, unpackXattrErr (some syscall.ELOOP)) :=
  ⟨by decide, by rfl, by decide,
    (listXAttr_syscall_error_not_downgraded envListEloop "a" syscall.ELOOP
      (by decide) (by rfl) (by decide)).1⟩

end GocryptfsXattr
